import Mathlib

set_option maxRecDepth 100000
set_option maxHeartbeats 1000000

/-!
Shallow embedding of the agih event pipeline (src/agents/researcher.py,
src/agents/reporter.py).  Python strings are modelled as Lean strings
processed as lists of characters; machine side effects (HTTP, LLM calls,
file writes, logging) are modelled as explicit parameters or returned
values.  Regular-expression matching over the fixed patterns of the source
is modelled by deterministic character-level matchers that implement the
leftmost, non-overlapping semantics of re.findall for those patterns (each
greedy sub-match of the patterns is followed by a character class disjoint
from the repeated class, so greedy matching without global backtracking is
exact; the one two-way choice, one versus two day digits, is tried in the
regex alternation order).
-/

/-- Word character in the sense of the regex metacharacters, over ASCII
input as produced by the pipeline. -/
def isWordChar (c : Char) : Bool := c.isAlphanum || c == '_'

/-- Whitespace characters matched by Python regex over ASCII input. -/
def isPySpace (c : Char) : Bool :=
  c == ' ' || c == '\t' || c == '\n' || c == '\x0b' || c == '\x0c' || c == '\r'

/-- Lowercase ASCII letter, the character class of the month-suffix run in
the date patterns of researcher.py line 58. -/
def isLowerAZ (c : Char) : Bool := decide ('a' ≤ c ∧ c ≤ 'z')

/-- If the first argument is a prefix of the second, drop it and return
the remainder. -/
def dropPre : List Char → List Char → Option (List Char)
  | [], s => some s
  | _ :: _, [] => none
  | p :: ps, c :: cs => if p = c then dropPre ps cs else none

/-- Try a list of literal alternatives in order, returning the matched
characters and the remainder; the alternatives used below are pairwise
incompatible at any position, so order only resolves ties that cannot
occur. -/
def matchAlt : List String → List Char → Option (List Char × List Char)
  | [], _ => none
  | a :: rest, s =>
    match dropPre a.data s with
    | some r => some (a.data, r)
    | none => matchAlt rest s

/-- Substring test: Python membership x in s on character lists. -/
def containsSub : List Char → List Char → Bool
  | [], nd => (dropPre nd []).isSome
  | c :: t, nd => (dropPre nd (c :: t)).isSome || containsSub t nd

/-- Python str.lower over the ASCII content relevant to the keyword
tests. -/
def lower_str (s : String) : String := String.mk (s.data.map Char.toLower)

/-- Python substring membership on strings. -/
def str_contains (hay nd : String) : Bool := containsSub hay.data nd.data

/-- Case-insensitive keyword test used by the classifier: the keyword is
looked up inside the lowercased block (researcher.py lines 210-214). -/
def has_kw (block kw : String) : Bool := str_contains (lower_str block) kw

/-- Event-type classification of researcher.py lines 208-215: default
Conference, overridden by the first matching keyword group. -/
def determine_event_type (block : String) : String :=
  if has_kw block "meetup" || has_kw block "networking" then "Meetup"
  else if has_kw block "workshop" || has_kw block "training" then "Workshop"
  else if has_kw block "hackathon" then "Hackathon"
  else "Conference"

/-- Month-name prefixes of the date regexes (researcher.py lines 58, 60). -/
def monthAbbrevs : List String :=
  ["Jan", "Feb", "Mar", "Apr", "May", "Jun", "Jul", "Aug", "Sep", "Oct", "Nov", "Dec"]

/-- Ordinal day suffixes of the date regexes. -/
def ordinalSuffixes : List String := ["st", "nd", "rd", "th"]

/-- Weekday names of the third date regex (researcher.py line 60) and of
the %A directive of strptime. -/
def weekdayNamesFull : List String :=
  ["Monday", "Tuesday", "Wednesday", "Thursday", "Friday", "Saturday", "Sunday"]

/-- Trailing word-boundary check: the remainder starts with a non-word
character or is empty. -/
def wordBoundary : List Char → Bool
  | [] => true
  | c :: _ => !(isWordChar c)

/-- Matcher for the regex tail after the day digits: optional ordinal
suffix, optional comma, a space, four digits, word boundary.  Each
optional piece, when present, is consumed; skipping it would leave a
character the following literal cannot match, so this agrees with the
backtracking regex. -/
def matchAfterDay (s : List Char) : Option (List Char × List Char) :=
  let (suf, r1) :=
    match matchAlt ordinalSuffixes s with
    | some (m, r) => (m, r)
    | none => ([], s)
  let (com, r2) :=
    match r1 with
    | ',' :: rr => ([','], rr)
    | _ => ([], r1)
  match r2 with
  | ' ' :: a :: b :: c :: d :: r4 =>
    if a.isDigit && b.isDigit && c.isDigit && d.isDigit && wordBoundary r4 then
      some (suf ++ com ++ ' ' :: [a, b, c, d], r4)
    else none
  | _ => none

/-- Matcher for the day digits: one or two digits, trying the two-digit
reading first and falling back to one digit, as the regex alternation
does. -/
def matchDayOnward (s : List Char) : Option (List Char × List Char) :=
  match s with
  | c1 :: c2 :: r2 =>
    if c1.isDigit then
      if c2.isDigit then
        match matchAfterDay r2 with
        | some (m, r) => some (c1 :: c2 :: m, r)
        | none =>
          match matchAfterDay (c2 :: r2) with
          | some (m, r) => some (c1 :: m, r)
          | none => none
      else
        match matchAfterDay (c2 :: r2) with
        | some (m, r) => some (c1 :: m, r)
        | none => none
    else none
  | _ => none

/-- Matcher for the first date pattern of researcher.py line 58: month
abbreviation, lowercase run, space, day, optional suffix and comma,
space, year, word boundary. -/
def matchMonthDate (s : List Char) : Option (List Char × List Char) :=
  match matchAlt monthAbbrevs s with
  | none => none
  | some (m, r1) =>
    let low := r1.takeWhile isLowerAZ
    let r2 := r1.drop low.length
    match r2 with
    | ' ' :: r3 =>
      match matchDayOnward r3 with
      | some (dm, r4) => some (m ++ low ++ ' ' :: dm, r4)
      | none => none
    | _ => none

/-- Matcher for the second date pattern of researcher.py line 59:
four digits, dash, two digits, dash, two digits, word boundary. -/
def matchIsoDate (s : List Char) : Option (List Char × List Char) :=
  match s with
  | a :: b :: c :: d :: '-' :: e :: f :: '-' :: g :: h :: r =>
    if a.isDigit && b.isDigit && c.isDigit && d.isDigit && e.isDigit && f.isDigit
        && g.isDigit && h.isDigit && wordBoundary r then
      some ([a, b, c, d, '-', e, f, '-', g, h], r)
    else none
  | _ => none

/-- Matcher for the third date pattern of researcher.py line 60: weekday
name, optional comma, whitespace run, then the month-date pattern. -/
def matchWeekdayDate (s : List Char) : Option (List Char × List Char) :=
  match matchAlt weekdayNamesFull s with
  | none => none
  | some (w, r1) =>
    let (com, r2) :=
      match r1 with
      | ',' :: rr => ([','], rr)
      | _ => ([], r1)
    let sp := r2.takeWhile isPySpace
    if sp.isEmpty then none
    else
      match matchMonthDate (r2.drop sp.length) with
      | some (m, r4) => some (w ++ com ++ sp ++ m, r4)
      | none => none

/-- Scanner implementing re.findall for the matchers above: scan left to
right, only attempt a match where the leading word boundary holds, emit
non-overlapping matches.  Fuel is the input length plus one; every step
consumes at least one character, so the fuel never runs out. -/
def findAllAux (mf : List Char → Option (List Char × List Char)) :
    Nat → Option Char → List Char → List String
  | 0, _, _ => []
  | Nat.succ fuel, prev, s =>
    let boundaryOk :=
      match prev with
      | none => true
      | some c => !(isWordChar c)
    match (if boundaryOk then mf s else none) with
    | some (m, rest) => String.mk m :: findAllAux mf fuel m.getLast? rest
    | none =>
      match s with
      | [] => []
      | c :: cs => findAllAux mf fuel (some c) cs

/-- All matches of one date pattern in a text, in positional order. -/
def findAll (mf : List Char → Option (List Char × List Char)) (text : String) : List String :=
  findAllAux mf (text.data.length + 1) none text.data

/-- Date strings collected by extract event details (researcher.py lines
62-65): the matches of the three patterns, concatenated in the order the
source lists the patterns. -/
def extracted_dates (text : String) : List String :=
  findAll matchMonthDate text ++ findAll matchIsoDate text ++ findAll matchWeekdayDate text

/-- The candidate date kept for a block (researcher.py line 77): the head
of the collected list, if any. -/
def extracted_date (text : String) : Option String := (extracted_dates text).head?

/-- Numeric value of a decimal digit character. -/
def digitVal (c : Char) : Nat := c.toNat - 48

/-- The %Y directive of strptime: exactly four digits. -/
def parse4Y : List Char → Option (Nat × List Char)
  | a :: b :: c :: d :: r =>
    if a.isDigit && b.isDigit && c.isDigit && d.isDigit then
      some (digitVal a * 1000 + digitVal b * 100 + digitVal c * 10 + digitVal d, r)
    else none
  | _ => none

/-- Two decimal digits and their value. -/
def parse2DigitNum : List Char → Option (Nat × List Char)
  | a :: b :: r =>
    if a.isDigit && b.isDigit then some (digitVal a * 10 + digitVal b, r) else none
  | _ => none

/-- One decimal digit and its value. -/
def parse1DigitNum : List Char → Option (Nat × List Char)
  | a :: r => if a.isDigit then some (digitVal a, r) else none
  | _ => none

/-- Calendar date as parsed by datetime.strptime (the time component is
always midnight in this pipeline and is omitted). -/
structure PDate where
  year : Nat
  month : Nat
  day : Nat
deriving DecidableEq, Repr

/-- Gregorian leap-year rule used by datetime. -/
def isLeapYear (y : Nat) : Bool :=
  y % 4 == 0 && (y % 100 != 0 || y % 400 == 0)

/-- Length of a month as validated by the datetime constructor. -/
def daysInMonth (y m : Nat) : Nat :=
  if m == 2 then (if isLeapYear y then 29 else 28)
  else if m == 4 || m == 6 || m == 9 || m == 11 then 30
  else 31

/-- Validity condition the datetime constructor enforces on a parsed
year, month and day. -/
def validCalendarDate (y m d : Nat) : Bool :=
  decide (1 ≤ y ∧ y ≤ 9999 ∧ 1 ≤ m ∧ m ≤ 12 ∧ 1 ≤ d ∧ d ≤ daysInMonth y m)

/-- Numeric strptime directive accepting one or two digits: the two-digit
alternatives of the directive regex are tried first, then the one-digit
alternative, each guarded by its range test. -/
def tryNum (twoOk oneOk : Nat → Bool) (s : List Char)
    (k : Nat → List Char → Option PDate) : Option PDate :=
  match
    (match parse2DigitNum s with
     | some (v, r) => if twoOk v then k v r else none
     | none => none) with
  | some d => some d
  | none =>
    match parse1DigitNum s with
    | some (v, r) => if oneOk v then k v r else none
    | none => none

/-- Single literal character of a strptime format. -/
def expectCh (c : Char) : List Char → Option (List Char)
  | x :: r => if x = c then some r else none
  | [] => none

/-- Whitespace in a strptime format, matching one or more whitespace
characters. -/
def skipSpaces1 (s : List Char) : Option (List Char) :=
  let sp := s.takeWhile isPySpace
  if sp.isEmpty then none else some (s.drop sp.length)

/-- Case-insensitive literal, as strptime compiles name directives. -/
def dropPreCI : List Char → List Char → Option (List Char)
  | [], s => some s
  | _ :: _, [] => none
  | p :: ps, c :: cs => if p.toLower = c.toLower then dropPreCI ps cs else none

/-- Try a list of names case-insensitively, returning the one-based index
of the first that matches; the month and weekday names are pairwise
incompatible so order is irrelevant. -/
def matchNameCIAux : List String → Nat → List Char → Option (Nat × List Char)
  | [], _, _ => none
  | n :: rest, i, s =>
    match dropPreCI n.data s with
    | some r => some (i, r)
    | none => matchNameCIAux rest (i + 1) s

/-- Full month names of the %B directive. -/
def monthFullNames : List String :=
  ["January", "February", "March", "April", "May", "June", "July", "August",
   "September", "October", "November", "December"]

/-- strptime with format %Y-%m-%d, including the full-consumption check
and the calendar validation of the datetime constructor. -/
def parse_fmt_ymd (s : List Char) : Option PDate :=
  match parse4Y s with
  | none => none
  | some (y, r1) =>
    match expectCh '-' r1 with
    | none => none
    | some r2 =>
      tryNum (fun v => decide (1 ≤ v ∧ v ≤ 12)) (fun v => decide (1 ≤ v)) r2 (fun m r3 =>
        match expectCh '-' r3 with
        | none => none
        | some r4 =>
          tryNum (fun v => decide (1 ≤ v ∧ v ≤ 31)) (fun v => decide (1 ≤ v)) r4 (fun d r5 =>
            if r5.isEmpty && validCalendarDate y m d then some ⟨y, m, d⟩ else none))

/-- strptime with format %B %d, %Y. -/
def parse_fmt_BdY (s : List Char) : Option PDate :=
  match matchNameCIAux monthFullNames 1 s with
  | none => none
  | some (m, r1) =>
    match skipSpaces1 r1 with
    | none => none
    | some r2 =>
      tryNum (fun v => decide (1 ≤ v ∧ v ≤ 31)) (fun v => decide (1 ≤ v)) r2 (fun d r3 =>
        match expectCh ',' r3 with
        | none => none
        | some r4 =>
          match skipSpaces1 r4 with
          | none => none
          | some r5 =>
            match parse4Y r5 with
            | none => none
            | some (y, r6) =>
              if r6.isEmpty && validCalendarDate y m d then some ⟨y, m, d⟩ else none)

/-- strptime with format %A, %B %d, %Y; the parsed weekday name is
ignored by strptime when a full date is present. -/
def parse_fmt_ABdY (s : List Char) : Option PDate :=
  match matchNameCIAux weekdayNamesFull 1 s with
  | none => none
  | some (_, r1) =>
    match expectCh ',' r1 with
    | none => none
    | some r2 =>
      match skipSpaces1 r2 with
      | none => none
      | some r3 => parse_fmt_BdY r3

/-- The date-format cascade of validate event (researcher.py lines
91-103): the three formats are attempted in source order and the first
that parses wins. -/
def parse_event_date (s : String) : Option PDate :=
  match parse_fmt_ymd s.data with
  | some d => some d
  | none =>
    match parse_fmt_BdY s.data with
    | some d => some d
    | none => parse_fmt_ABdY s.data

/-- Chronological comparison of parsed dates, as datetime compares two
midnight datetimes. -/
def dateLe (a b : PDate) : Bool :=
  decide (a.year < b.year ∨ (a.year = b.year ∧
    (a.month < b.month ∨ (a.month = b.month ∧ a.day ≤ b.day))))

/-- Start of the target window (researcher.py line 109). -/
def target_start : PDate := ⟨2025, 5, 19⟩

/-- End of the target window (researcher.py line 110). -/
def target_end : PDate := ⟨2025, 5, 23⟩

/-- Event record passed between the pipeline stages.  Optional fields
model dictionary keys that may be absent or hold Python None; the
capitalised JSON keys consumed by the formatter (Title, Date, URL,
Location, Type) map to the same fields. -/
structure Event where
  title : String
  date : String
  time : Option String
  location : String
  description : Option String
  url : Option String
  etype : Option String
deriving DecidableEq, Repr

/-- Validation of researcher.py lines 83-113: non-empty title and date,
a parseable date, and membership in the inclusive target window. -/
def validate_event (e : Event) : Bool :=
  if e.title = "" ∨ e.date = "" then false
  else
    match parse_event_date e.date with
    | none => false
    | some d => dateLe target_start d && dateLe d target_end

/-- The validate-and-append loop of search events (researcher.py lines
224-233): each built candidate is kept exactly when it validates, in
input order. -/
def collect_valid_events : List Event → List Event
  | [] => []
  | e :: rest =>
    if validate_event e then e :: collect_valid_events rest
    else collect_valid_events rest

/-- The built-in seed data of researcher.py lines 38-47; the source
record carries no type key. -/
def sample_events : List Event :=
  [{ title := "AI & Machine Learning Meetup",
     date := "2025-05-20",
     time := some "18:00",
     location := "San Francisco Tech Hub",
     description := some "Join us for an evening of AI discussions and networking",
     url := some "https://example.com/ai-meetup",
     etype := none }]

/-- Outcome of one search events call (researcher.py lines 115-240): on
success the validated candidates of the query, on any exception the empty
list (lines 236-240 discard the partial local list). -/
def search_events_run (r : Except String (List Event)) : List Event :=
  match r with
  | Except.ok candidates => collect_valid_events candidates
  | Except.error _ => []

/-- Accumulation across queries (researcher.py lines 256-259): each
query's result list is appended to the running list. -/
def accumulated_events (rs : List (Except String (List Event))) : List Event :=
  (rs.map search_events_run).foldl (fun acc l => acc ++ l) []

/-- scrape events (researcher.py lines 242-271): accumulate over the
queries, then fall back to the seed data when nothing was accumulated. -/
def scrape_events (rs : List (Except String (List Event))) : List Event :=
  let all_events := accumulated_events rs
  if all_events.isEmpty then sample_events else all_events

/-- Characters of a string before its first comma: Python
s.split(",")[0]. -/
def firstCommaSeg : List Char → List Char
  | [] => []
  | c :: t => if c = ',' then [] else c :: firstCommaSeg t

/-- Day key of a record in the formatter (reporter.py line 103): the part
of the date string before the first comma. -/
def day_of (e : Event) : String := String.mk (firstCommaSeg e.date.data)

/-- The fixed weekday iteration order of reporter.py line 109. -/
def dayOrder : List String := ["Monday", "Tuesday", "Wednesday", "Thursday", "Friday"]

/-- Insertion into the per-day grouping dictionary (reporter.py lines
104-106): a fresh key is appended, an existing key has the event appended
to its list. -/
def insertByDay : List (String × List Event) → String → Event → List (String × List Event)
  | [], day, e => [(day, [e])]
  | (d, es) :: rest, day, e =>
    if d = day then (d, es ++ [e]) :: rest
    else (d, es) :: insertByDay rest day e

/-- Dictionary lookup on the grouping. -/
def lookupDay : List (String × List Event) → String → Option (List Event)
  | [], _ => none
  | (d, es) :: rest, day => if d = day then some es else lookupDay rest day

/-- The grouping loop of reporter.py lines 101-106. -/
def groupByDay (events : List Event) : List (String × List Event) :=
  events.foldl (fun m e => insertByDay m (day_of e) e) []

/-- Rendering of a Python value in an f-string: None prints as the text
None. -/
def optStr : Option String → String
  | none => "None"
  | some s => s

/-- One event line of the report (reporter.py line 113).  The type field
is read through a total default because format events never reaches this
line with an absent type: that case is intercepted by the key-error guard
below. -/
def format_event_line (e : Event) : String :=
  "**[[" ++ e.title ++ "]](" ++ optStr e.url ++ ")** (" ++ e.location ++ ")[" ++
    e.etype.getD "" ++ "]\n"

/-- Week header line of the report (reporter.py line 98); the week number
reaches the formatter from the clock and is a parameter here. -/
def week_header (week : Nat) : String :=
  "**==================[ WEEK " ++ toString week ++ " EVENTS ]==================**\n\n"

/-- A record that would be emitted (it sits under one of the five day
keys) but carries no type key: reading its Type raises KeyError in the
source, caught at reporter.py line 118. -/
def bucketed_missing_type (events : List Event) : Bool :=
  dayOrder.any (fun d =>
    match lookupDay (groupByDay events) d with
    | some es => es.any (fun e => e.etype.isNone)
    | none => false)

/-- format events (reporter.py lines 89-120) on the parsed record list:
group by the pre-comma day key, then iterate the five weekday labels in
order, emitting a block only for labels present in the grouping.  The
exception path of line 118 (a key error while emitting) returns the
literal error string. -/
def format_events (week : Nat) (events : List Event) : String :=
  if bucketed_missing_type events then "Error formatting events"
  else
    let byDay := groupByDay events
    dayOrder.foldl (fun md day =>
      match lookupDay byDay day with
      | none => md
      | some es =>
        md ++ "**[ " ++ day ++ " ]**\n" ++
          es.foldl (fun acc e => acc ++ format_event_line e) "" ++ "\n")
      (week_header week)

/-- Run state threaded through the agents: the dictionary keys touched by
the reporter.  Absent keys are modelled as none. -/
structure RState where
  events : List Event
  status : String
  error : Option String
  formatted_events : Option String
deriving DecidableEq, Repr

/-- Discord rendering of one event (reporter.py lines 17-44); absent keys
fall back to the defaults of dict.get. -/
def format_event (e : Event) : String :=
  let time_str := match e.time with | none => "TBD" | some t => t
  let descr0 := match e.description with | none => "" | some d0 => d0
  let descr := if descr0.length > 200 then String.mk (descr0.data.take 197) ++ "..." else descr0
  let url_str := match e.url with
    | none => ""
    | some u => if u = "" then "" else "\n🔗 " ++ u
  "**" ++ e.title ++ "**\n📅 " ++ e.date ++ " at " ++ time_str ++ "\n📍 " ++ e.location ++
    "\n📝 " ++ descr ++ url_str ++ "\n-------------------"

/-- The formatting stage of reporter run (reporter.py lines 66-72):
format every event and join with blank lines. -/
def format_stage (events : List Event) : String :=
  String.intercalate "\n\n" (events.map format_event)

/-- reporter run (reporter.py lines 55-87).  The formatting stage is a
parameter returning an exception or the joined output, since the except
branch of line 83 is reachable only through dynamic failures of that
stage; on success the output is written to the output file (second
component collects file writes), on the empty-events early return nothing
happens, and on an exception the status and error keys are set with the
events left untouched. -/
def reporter_run (fmtStage : List Event → Except String String) (s : RState) :
    RState × List String :=
  if s.events.isEmpty then (s, [])
  else
    match fmtStage s.events with
    | Except.ok final_output =>
      ({ s with formatted_events := some final_output, status := "formatted" }, [final_output])
    | Except.error msg =>
      ({ s with status := "error", error := some msg }, [])

/-- Candidate pair sharing one non-empty url, both inside the target
window. -/
def dup_event_a : Event :=
  { title := "AI Agents Summit", date := "2025-05-20", time := none,
    location := "San Francisco", description := none,
    url := some "https://example.com/x", etype := some "Conference" }

/-- Second candidate with the same url as the first. -/
def dup_event_b : Event :=
  { title := "Founders Mixer", date := "2025-05-21", time := none,
    location := "San Francisco", description := none,
    url := some "https://example.com/x", etype := some "Meetup" }

/-- A candidate whose date parses but lies outside the target window. -/
def june_event : Event :=
  { title := "June AI Fair", date := "June 1, 2025", time := none,
    location := "San Francisco", description := none,
    url := some "https://example.com/june", etype := some "Conference" }

/-- A validator-accepted record whose date is in ISO form. -/
def iso_event : Event :=
  { title := "SF AI Conference", date := "2025-05-20", time := none,
    location := "San Francisco", description := none,
    url := some "https://example.com/conf", etype := some "Conference" }

/-- Boundary-test record with a given date string. -/
def boundary_event (d : String) : Event :=
  { title := "Boundary Event", date := d, time := none,
    location := "San Francisco", description := none,
    url := none, etype := some "Conference" }

/-- Reporter state with a non-empty event list. -/
def c9_state : RState :=
  { events := [iso_event], status := "events_found", error := none, formatted_events := none }

/-- Reporter state with an empty event list. -/
def c10_state : RState :=
  { events := [], status := "events_found", error := none, formatted_events := none }

theorem collect_valid_events_append (l1 l2 : List Event) :
    collect_valid_events (l1 ++ l2) = collect_valid_events l1 ++ collect_valid_events l2 := by
  induction l1 with
  | nil => simp [collect_valid_events]
  | cons e t ih =>
    simp only [List.cons_append, collect_valid_events]
    by_cases h : validate_event e = true
    · simp [h, ih]
    · simp [h, ih]

theorem foldl_append_acc (ls : List (List Event)) (acc : List Event) :
    ls.foldl (fun a l => a ++ l) acc = acc ++ ls.foldl (fun a l => a ++ l) [] := by
  induction ls generalizing acc with
  | nil => simp
  | cons h t ih =>
    simp only [List.foldl]
    rw [ih (acc ++ h), ih ([] ++ h)]
    simp [List.append_assoc]

theorem accumulated_events_cons (r : Except String (List Event))
    (rs : List (Except String (List Event))) :
    accumulated_events (r :: rs) = search_events_run r ++ accumulated_events rs := by
  unfold accumulated_events
  simp only [List.map_cons, List.foldl]
  rw [foldl_append_acc]
  simp

theorem accumulated_events_append (l1 l2 : List (Except String (List Event))) :
    accumulated_events (l1 ++ l2) = accumulated_events l1 ++ accumulated_events l2 := by
  induction l1 with
  | nil => simp [accumulated_events]
  | cons r t ih =>
    rw [List.cons_append, accumulated_events_cons, accumulated_events_cons, ih,
      List.append_assoc]

theorem lookupDay_insertByDay_other (m : List (String × List Event)) (day d : String)
    (e : Event) (hne : day ≠ d) :
    lookupDay (insertByDay m day e) d = lookupDay m d := by
  induction m with
  | nil => simp [insertByDay, lookupDay, hne]
  | cons p rest ih =>
    obtain ⟨pd, pes⟩ := p
    by_cases hpd : pd = day
    · subst hpd
      simp [insertByDay, lookupDay, hne]
    · simp [insertByDay, lookupDay, hpd, ih]

theorem lookupDay_foldl_none (d : String) (evs : List Event) :
    ∀ m : List (String × List Event), lookupDay m d = none →
      (∀ e ∈ evs, day_of e ≠ d) →
      lookupDay (evs.foldl (fun m e => insertByDay m (day_of e) e) m) d = none := by
  induction evs with
  | nil =>
    intro m hm _
    simpa using hm
  | cons e t ih =>
    intro m hm h
    simp only [List.foldl]
    apply ih
    · rw [lookupDay_insertByDay_other m (day_of e) d e (h e (by simp))]
      exact hm
    · intro x hx
      exact h x (by simp [hx])

theorem lookupDay_groupByDay_none (evs : List Event) (d : String)
    (h : ∀ e ∈ evs, day_of e ≠ d) :
    lookupDay (groupByDay evs) d = none := by
  unfold groupByDay
  exact lookupDay_foldl_none d evs [] rfl h

theorem format_events_no_weekday (w : Nat) (evs : List Event)
    (h : ∀ e ∈ evs, ∀ d ∈ dayOrder, day_of e ≠ d) :
    format_events w evs = week_header w := by
  have hM := lookupDay_groupByDay_none evs "Monday"
    (fun e he => h e he "Monday" (by simp [dayOrder]))
  have hT := lookupDay_groupByDay_none evs "Tuesday"
    (fun e he => h e he "Tuesday" (by simp [dayOrder]))
  have hW := lookupDay_groupByDay_none evs "Wednesday"
    (fun e he => h e he "Wednesday" (by simp [dayOrder]))
  have hH := lookupDay_groupByDay_none evs "Thursday"
    (fun e he => h e he "Thursday" (by simp [dayOrder]))
  have hF := lookupDay_groupByDay_none evs "Friday"
    (fun e he => h e he "Friday" (by simp [dayOrder]))
  unfold format_events bucketed_missing_type
  simp [dayOrder, List.foldl, hM, hT, hW, hH, hF]

theorem parse4Y_head (s : List Char) (p : Nat × List Char) (h : parse4Y s = some p) :
    ∃ a t, s = a :: t ∧ a.isDigit = true := by
  cases s with
  | nil => simp [parse4Y] at h
  | cons a t =>
    refine ⟨a, t, rfl, ?_⟩
    cases t with
    | nil => simp [parse4Y] at h
    | cons b t2 =>
      cases t2 with
      | nil => simp [parse4Y] at h
      | cons c t3 =>
        cases t3 with
        | nil => simp [parse4Y] at h
        | cons d r =>
          by_cases ha : a.isDigit = true
          · exact ha
          · rw [Bool.not_eq_true] at ha
            simp [parse4Y, ha] at h

theorem parse_fmt_ymd_head (s : List Char) (p : PDate) (h : parse_fmt_ymd s = some p) :
    ∃ a t, s = a :: t ∧ a.isDigit = true := by
  unfold parse_fmt_ymd at h
  cases hq : parse4Y s with
  | none => rw [hq] at h; simp at h
  | some q => exact parse4Y_head s q hq

theorem day_of_head_digit_not_weekday (e : Event) (a : Char) (t : List Char)
    (hs : e.date.data = a :: t) (ha : a.isDigit = true) :
    ∀ d ∈ dayOrder, day_of e ≠ d := by
  intro d hd heq
  have hnc : ¬(a = ',') := by
    intro hc
    rw [hc] at ha
    exact absurd ha (by decide)
  have h4 : (day_of e).data = a :: firstCommaSeg t := by
    simp [day_of, hs, firstCommaSeg, hnc]
  have h5 : a :: firstCommaSeg t = d.data := by
    rw [← h4, heq]
  have h6 : d.data.headD ' ' = a := by
    rw [← h5]; rfl
  have h7 : (d.data.headD ' ').isDigit = true := by
    rw [h6]; exact ha
  have h8 : ∀ x ∈ dayOrder, (x.data.headD ' ').isDigit = false := by decide
  rw [h8 d hd] at h7
  exact Bool.noConfusion h7

theorem iso_event_not_bucketed (e : Event)
    (hiso : (parse_fmt_ymd e.date.data).isSome = true) :
    ∀ d ∈ dayOrder, day_of e ≠ d := by
  cases hp : parse_fmt_ymd e.date.data with
  | none => rw [hp] at hiso; simp at hiso
  | some pd =>
    obtain ⟨a, t, hs, ha⟩ := parse_fmt_ymd_head e.date.data pd hp
    exact day_of_head_digit_not_weekday e a t hs ha

/-- C1, counterexample: two candidate records with the same non-empty url
both survive validation and both appear in the final record set; the
later one is not discarded. -/
theorem claim_C1_counterexample :
    scrape_events [Except.ok [dup_event_a, dup_event_b]] = [dup_event_a, dup_event_b] ∧
    dup_event_a.url = dup_event_b.url ∧ dup_event_a.url ≠ none ∧ dup_event_a ≠ dup_event_b := by
  refine ⟨by decide, by decide, by decide, by decide⟩

/-- C1, amended: validation performs no url deduplication; every
candidate that passes the schema and date-window checks survives into the
result in input order, regardless of any earlier record with an identical
non-empty url. -/
theorem claim_C1 (pre mid post : List Event) (a b : Event)
    (ha : validate_event a = true) (hb : validate_event b = true) :
    collect_valid_events (pre ++ a :: (mid ++ b :: post)) =
      collect_valid_events pre ++
        a :: (collect_valid_events mid ++ b :: collect_valid_events post) := by
  rw [collect_valid_events_append]
  simp [collect_valid_events, ha, hb, collect_valid_events_append]

/-- C1, witness: the amended statement applied to the two url-sharing
records. -/
theorem claim_C1_witness :
    collect_valid_events ([] ++ dup_event_a :: ([] ++ dup_event_b :: [])) =
      collect_valid_events [] ++
        dup_event_a :: (collect_valid_events [] ++ dup_event_b :: collect_valid_events []) :=
  claim_C1 [] [] [] dup_event_a dup_event_b (by decide) (by decide)

/-- C4, counterexample: on a block holding a full weekday-form date, the
weekday pattern does match, yet the kept date is the shorter month-form
match, because the month pattern is listed first and all matches are
concatenated in list order. -/
theorem claim_C4_counterexample :
    findAll matchWeekdayDate "Monday, May 19, 2025" = ["Monday, May 19, 2025"] ∧
    extracted_date "Monday, May 19, 2025" = some "May 19, 2025" ∧
    ("May 19, 2025" : String) ≠ "Monday, May 19, 2025" := by
  refine ⟨by decide, by decide, by decide⟩

/-- C4, amended: the pattern list is ordered month-form, then ISO form,
then weekday form; the matches of all patterns are concatenated in that
order and the head is kept, so the earliest-listed pattern producing any
match supplies the candidate date. -/
theorem claim_C4 (text : String) :
    (findAll matchMonthDate text ≠ [] →
      extracted_date text = (findAll matchMonthDate text).head?) ∧
    (findAll matchMonthDate text = [] → findAll matchIsoDate text ≠ [] →
      extracted_date text = (findAll matchIsoDate text).head?) ∧
    (findAll matchMonthDate text = [] → findAll matchIsoDate text = [] →
      extracted_date text = (findAll matchWeekdayDate text).head?) := by
  unfold extracted_date extracted_dates
  refine ⟨?_, ?_, ?_⟩
  · intro h
    cases hl : findAll matchMonthDate text with
    | nil => exact absurd hl h
    | cons x xs => simp [hl]
  · intro h1 h2
    rw [h1]
    cases hl : findAll matchIsoDate text with
    | nil => exact absurd hl h2
    | cons x xs => simp [hl]
  · intro h1 h2
    rw [h1, h2]
    simp

/-- C4, witness: on an ISO-only block, the month pattern is empty and the
ISO pattern supplies the date. -/
theorem claim_C4_witness :
    extracted_date "2025-05-19" = (findAll matchIsoDate "2025-05-19").head? :=
  (claim_C4 "2025-05-19").2.1 (by decide) (by decide)

/-- C5: the classifier follows the fixed first-match-wins precedence on
case-insensitive keyword tests; in particular workshop beats hackathon
once the meetup group failed, and no keyword at all yields Conference. -/
theorem claim_C5 (block : String) :
    ((has_kw block "meetup" || has_kw block "networking") = true →
      determine_event_type block = "Meetup") ∧
    ((has_kw block "meetup" || has_kw block "networking") = false →
      (has_kw block "workshop" || has_kw block "training") = true →
      determine_event_type block = "Workshop") ∧
    ((has_kw block "meetup" || has_kw block "networking") = false →
      has_kw block "workshop" = true → has_kw block "hackathon" = true →
      determine_event_type block = "Workshop") ∧
    ((has_kw block "meetup" || has_kw block "networking") = false →
      (has_kw block "workshop" || has_kw block "training") = false →
      has_kw block "hackathon" = true →
      determine_event_type block = "Hackathon") ∧
    ((has_kw block "meetup" || has_kw block "networking") = false →
      (has_kw block "workshop" || has_kw block "training") = false →
      has_kw block "hackathon" = false →
      determine_event_type block = "Conference") := by
  unfold determine_event_type
  refine ⟨?_, ?_, ?_, ?_, ?_⟩ <;> intros <;> simp_all

/-- C5, witness: a block holding both workshop and hackathon classifies
as Workshop. -/
theorem claim_C5_witness : determine_event_type "workshop hackathon" = "Workshop" :=
  (claim_C5 "workshop hackathon").2.2.1 (by decide) (by decide) (by decide)

/-- C6: every record the validator accepts carries a date that parses and
lies in the inclusive window from target start to target end; records
dated exactly on either boundary pass, records one day outside either
boundary fail. -/
theorem claim_C6 :
    (∀ e : Event, validate_event e = true →
      ∃ d, parse_event_date e.date = some d ∧
        dateLe target_start d = true ∧ dateLe d target_end = true) ∧
    validate_event (boundary_event "2025-05-19") = true ∧
    validate_event (boundary_event "2025-05-23") = true ∧
    validate_event (boundary_event "2025-05-18") = false ∧
    validate_event (boundary_event "2025-05-24") = false := by
  refine ⟨?_, by decide, by decide, by decide, by decide⟩
  intro e hv
  unfold validate_event at hv
  by_cases ht : e.title = "" ∨ e.date = ""
  · simp [ht] at hv
  · rw [if_neg ht] at hv
    cases hp : parse_event_date e.date with
    | none => rw [hp] at hv; simp at hv
    | some d =>
      rw [hp] at hv
      rw [Bool.and_eq_true] at hv
      exact ⟨d, rfl, hv.1, hv.2⟩

/-- C6, witness: the window property applied to a concrete accepted
record. -/
theorem claim_C6_witness :
    ∃ d, parse_event_date (boundary_event "2025-05-20").date = some d ∧
      dateLe target_start d = true ∧ dateLe d target_end = true :=
  claim_C6.1 (boundary_event "2025-05-20") (by decide)

/-- C7, counterexample: a query produces one candidate record, yet the
candidate fails validation and the run still falls back to the seed data,
so producing at least one candidate does not prevent the seed record from
being used. -/
theorem claim_C7_counterexample :
    collect_valid_events [june_event] = [] ∧
    scrape_events [Except.ok [june_event]] = sample_events ∧
    sample_events ≠ [june_event] := by
  refine ⟨by decide, by decide, by decide⟩

/-- C7, amended: the fallback to the single built-in seed record triggers
exactly when zero candidates survive validation across all queries; when
at least one validated record was accumulated, the accumulated set is
returned unchanged and the seed is not used, and the returned set is
never empty. -/
theorem claim_C7 (rs : List (Except String (List Event))) :
    (accumulated_events rs = [] → scrape_events rs = sample_events) ∧
    (accumulated_events rs ≠ [] → scrape_events rs = accumulated_events rs) ∧
    scrape_events rs ≠ [] := by
  unfold scrape_events
  refine ⟨?_, ?_, ?_⟩
  · intro h
    simp [h]
  · intro h
    simp [h]
  · by_cases h : accumulated_events rs = []
    · simp [h, sample_events]
    · simp [h]

/-- C7, witness: with no queries, nothing is accumulated and the seed
record is handed on. -/
theorem claim_C7_witness : scrape_events [] = sample_events :=
  (claim_C7 []).1 rfl

/-- C8: a query that raises contributes the empty list, the surrounding
queries are processed as if it were absent, and contributions accumulated
from the other queries are preserved in order. -/
theorem claim_C8 (pre post : List (Except String (List Event))) (msg : String) :
    search_events_run (Except.error msg) = [] ∧
    accumulated_events (pre ++ Except.error msg :: post) =
      accumulated_events pre ++ accumulated_events post ∧
    scrape_events (pre ++ Except.error msg :: post) = scrape_events (pre ++ post) := by
  have h2 : accumulated_events (pre ++ Except.error msg :: post) =
      accumulated_events pre ++ accumulated_events post := by
    rw [accumulated_events_append, accumulated_events_cons]
    rfl
  refine ⟨rfl, h2, ?_⟩
  unfold scrape_events
  rw [h2, accumulated_events_append]

/-- C2, counterexample: on the empty record set the formatter output is
the week header alone, with no day header and no placeholder text. -/
theorem claim_C2_counterexample :
    format_events 1 [] = "**==================[ WEEK 1 EVENTS ]==================**\n\n" ∧
    str_contains (format_events 1 []) "**[ Monday ]**" = false ∧
    str_contains (format_events 1 []) "(no events)" = false := by
  refine ⟨by decide, by decide, by decide⟩

/-- C2, amended: a day header is emitted only for weekday labels that
have at least one matching record; a label with no record contributes
nothing, and when no record maps to any of the five labels (in particular
for the empty input) the output is exactly the week header. -/
theorem claim_C2 (w : Nat) (evs : List Event)
    (h : ∀ e ∈ evs, ∀ d ∈ dayOrder, day_of e ≠ d) :
    format_events w evs = week_header w :=
  format_events_no_weekday w evs h

/-- C2, witness: the amended statement applied to the empty record set. -/
theorem claim_C2_witness : format_events 1 [] = week_header 1 :=
  claim_C2 1 [] (by simp)

/-- C3, counterexample: a record the validator accepts, dated in ISO
form, matches none of the five weekday buckets: the full report built
from it is the bare week header and its title is absent from the
output. -/
theorem claim_C3_counterexample :
    validate_event iso_event = true ∧
    format_events 1 [iso_event] = week_header 1 ∧
    str_contains (format_events 1 [iso_event]) iso_event.title = false := by
  refine ⟨by decide, by decide, by decide⟩

/-- C3, amended: bucket placement depends on the textual form of the
date rather than its parsed value; a validator-accepted record whose
date string is in ISO form matches none of the five buckets and is
excluded from the formatter output. -/
theorem claim_C3 (w : Nat) (e : Event) (_hv : validate_event e = true)
    (hiso : (parse_fmt_ymd e.date.data).isSome = true) :
    (∀ d ∈ dayOrder, day_of e ≠ d) ∧ format_events w [e] = week_header w := by
  have hday := iso_event_not_bucketed e hiso
  refine ⟨hday, format_events_no_weekday w [e] ?_⟩
  intro x hx d hd
  have hxe : x = e := by simpa using hx
  rw [hxe]
  exact hday d hd

/-- C3, witness: the amended statement applied to the concrete accepted
ISO-dated record. -/
theorem claim_C3_witness :
    (∀ d ∈ dayOrder, day_of iso_event ≠ d) ∧
      format_events 2 [iso_event] = week_header 2 :=
  claim_C3 2 iso_event (by decide) (by decide)

/-- C9: when the formatting stage raises, the reporter sets the status
key to error and the error key to the message, leaves the events and
formatted-events keys untouched, writes no file, and still returns a run
state. -/
theorem claim_C9 (fmtStage : List Event → Except String String) (s : RState) (msg : String)
    (hne : s.events ≠ []) (hf : fmtStage s.events = Except.error msg) :
    (reporter_run fmtStage s).1.status = "error" ∧
    (reporter_run fmtStage s).1.events = s.events ∧
    (reporter_run fmtStage s).1.error = some msg ∧
    (reporter_run fmtStage s).1.formatted_events = s.formatted_events ∧
    (reporter_run fmtStage s).2 = [] := by
  have h0 : s.events.isEmpty = false := by
    cases h : s.events with
    | nil => exact absurd h hne
    | cons a t => rfl
  simp [reporter_run, h0, hf]

/-- C9, witness: a concrete state and a failing formatting stage. -/
theorem claim_C9_witness :
    (reporter_run (fun _ => Except.error "boom") c9_state).1.status = "error" ∧
    (reporter_run (fun _ => Except.error "boom") c9_state).1.events = c9_state.events ∧
    (reporter_run (fun _ => Except.error "boom") c9_state).1.error = some "boom" ∧
    (reporter_run (fun _ => Except.error "boom") c9_state).1.formatted_events =
      c9_state.formatted_events ∧
    (reporter_run (fun _ => Except.error "boom") c9_state).2 = [] :=
  claim_C9 (fun _ => Except.error "boom") c9_state "boom" (by decide) rfl

/-- C10: with an empty events list the reporter returns the input state
with every field unchanged and writes no file. -/
theorem claim_C10 (fmtStage : List Event → Except String String) (s : RState)
    (h : s.events = []) :
    reporter_run fmtStage s = (s, []) := by
  simp [reporter_run, h]

/-- C10, witness: the concrete formatting stage of the source applied to
a state with no events. -/
theorem claim_C10_witness :
    reporter_run (fun evs => Except.ok (format_stage evs)) c10_state = (c10_state, []) :=
  claim_C10 (fun evs => Except.ok (format_stage evs)) c10_state rfl
